import Mathlib

/-!
Shallow embedding of the iab-docs-bot worker core: the skill-context cache
(skill.ts), the MCP client and document search (mcp.ts), and the Gemini agent
loop (gemini.ts).  External effects (HTTP fetches, the MCP transport, the LLM
endpoint) are modelled as explicit outcome parameters; JavaScript exceptions
are modelled with `Except`.
-/

/-! ### skill.ts — the scope-document (skill.md) cache -/

/-- `CACHE_TTL_MS = 60 * 60 * 1000` (one hour), from skill.ts. -/
def CACHE_TTL_MS : Nat := 60 * 60 * 1000

/-- The module-level mutable state of skill.ts: `cachedContent : string | null`
and `cachedAt` (epoch milliseconds, initially 0). -/
structure SkillState where
  cachedContent : Option String
  cachedAt : Nat
  deriving DecidableEq, Repr

/-- The initial module state of skill.ts: `cachedContent = null`, `cachedAt = 0`. -/
def skillInit : SkillState := { cachedContent := none, cachedAt := 0 }

/-- Outcome of one attempted `fetch(SKILL_MD_URL)`.  `failure` covers a non-ok
HTTP status (the code throws `HTTP <status>` itself), a transport error, and a
failing `res.text()` — all of them land in the same `catch` block. -/
inductive FetchOutcome where
  | success (text : String)
  | failure
  deriving DecidableEq, Repr

/-- Result of one call to `getSkillContext`: the returned string, the module
state after the call, and whether a network fetch was attempted. -/
structure SkillCall where
  returned : String
  state : SkillState
  fetched : Bool
  deriving DecidableEq, Repr

/-- The `try`/`catch` body of `getSkillContext`: on success store the text and
the timestamp and return the text; on failure leave the state alone and return
`cachedContent ?? ''`. -/
def skillFetch (st : SkillState) (now : Nat) : FetchOutcome → SkillCall
  | .success text =>
    { returned := text
      state := { cachedContent := some text, cachedAt := now }
      fetched := true }
  | .failure =>
    { returned := st.cachedContent.getD "", state := st, fetched := true }

/-- `getSkillContext` from skill.ts.  `now` is `Date.now()`; `outcome` is what
the network fetch would produce if one is made.  Note on the freshness test:
the source computes `now - cachedAt < CACHE_TTL_MS` on JS numbers, where a
negative difference also passes; `Nat` subtraction truncates a negative
difference to 0, which also passes, so the branch taken agrees. -/
def getSkillContext (st : SkillState) (now : Nat) (outcome : FetchOutcome) :
    SkillCall :=
  match st.cachedContent with
  | some c =>
    if now - st.cachedAt < CACHE_TTL_MS then
      { returned := c, state := st, fetched := false }
    else
      skillFetch st now outcome
  | none => skillFetch st now outcome

/-! ### mcp.ts — MCP client handle and document search -/

/-- The MCP `Client` object, reduced to the one observable fact the claims
need: whether `connect` has succeeded on it.  `new Client(...)` produces an
unconnected client; `client.connect(transport)` flips the flag on success. -/
structure McpClient where
  connected : Bool
  deriving DecidableEq, Repr

/-- `getClient` from mcp.ts, as a transition on the module-level
`client : Client | null` slot.  Source order matters: the global `client` is
assigned the fresh `new Client(...)` BEFORE `await client.connect(transport)`
runs, and `getClient` also runs `await client.listTools()` (for logging) before
returning; a rejection of either leaves the global assigned.  Returns the
result (`Except` models a thrown rejection), the slot after the call, and
whether a connection attempt was made. -/
def getClient (cached : Option McpClient) (connectOk listToolsOk : Bool) :
    Except Unit McpClient × Option McpClient × Bool :=
  match cached with
  | some c => (.ok c, some c, false)
  | none =>
    if connectOk then
      if listToolsOk then
        (.ok { connected := true }, some { connected := true }, true)
      else
        (.error (), some { connected := true }, true)
    else
      (.error (), some { connected := false }, true)

/-- `closeClient` from mcp.ts: closes the client if present and resets the
module-level slot to `null`. -/
def closeClient (_cached : Option McpClient) : Option McpClient := none

/-- A tool descriptor as returned by `listTools` (only the name is inspected
by the search logic; the description is only logged). -/
structure ToolDesc where
  name : String
  deriving DecidableEq, Repr

/-- `hay` contains `needle` as a contiguous substring (JS
`String.prototype.includes` on the character list). -/
def containsSub (hay needle : List Char) : Bool :=
  needle.isPrefixOf hay ||
    match hay with
    | [] => false
    | _ :: t => containsSub t needle

/-- `String.prototype.toLowerCase` on the character list (ASCII case mapping;
the tool names compared against are plain ASCII). -/
def lowerChars (s : String) : List Char := s.toList.map Char.toLower

/-- The tool-selection test of mcp.ts:
`t.name.toLowerCase().includes('search') || t.name.toLowerCase().includes('query')`. -/
def isSearchTool (t : ToolDesc) : Bool :=
  containsSub (lowerChars t.name) "search".toList ||
    containsSub (lowerChars t.name) "query".toList

/-- `tools.find(...)` from mcp.ts: first tool whose lower-cased name contains
`search` or `query`. -/
def findSearchTool (tools : List ToolDesc) : Option ToolDesc :=
  tools.find? isSearchTool

/-- One element of an MCP tool response's `content` array.  `text s` is an
element with `type === 'text'` and a string `text` payload; `other` is any
element failing that test (skipped by the extraction loop). -/
inductive ContentItem where
  | text (s : String)
  | other
  deriving DecidableEq, Repr

/-- The `content` accumulator of mcp.ts: `content += item.text + '\n\n'` for
each text element, in response order. -/
def contentConcat (items : List ContentItem) : String :=
  items.foldl
    (fun acc it =>
      match it with
      | .text s => acc ++ s ++ "\n\n"
      | .other => acc)
    ""

/-- JS `String.prototype.trim` whitespace test: the WhiteSpace and
LineTerminator productions (space, tab, LF, VT, FF, CR, NBSP, BOM, the
Unicode Zs spaces, LS, PS). -/
def isJsWhitespace (c : Char) : Bool :=
  c = ' ' || c = '\t' || c = '\n' || c = '\x0b' || c = '\x0c' || c = '\r' ||
  c = '\u00A0' || c = '\u1680' ||
  ('\u2000' ≤ c && c ≤ '\u200A') ||
  c = '\u2028' || c = '\u2029' || c = '\u202F' || c = '\u205F' ||
  c = '\u3000' || c = '\uFEFF'

/-- JS `String.prototype.trim`: strip `isJsWhitespace` characters from both
ends. -/
def jsTrim (s : String) : String :=
  String.mk
    (((s.toList.dropWhile isJsWhitespace).reverse.dropWhile isJsWhitespace).reverse)

/-- Match `https?:\/\/` at the head of `cs`: the scheme characters consumed
and the remainder.  Greedy `s?` with the mandatory `://` behind it reduces to
trying `https://` first, then `http://`. -/
def stripScheme : List Char → Option (List Char × List Char)
  | 'h' :: 't' :: 't' :: 'p' :: 's' :: ':' :: '/' :: '/' :: r =>
    some (['h', 't', 't', 'p', 's', ':', '/', '/'], r)
  | 'h' :: 't' :: 't' :: 'p' :: ':' :: '/' :: '/' :: r =>
    some (['h', 't', 't', 'p', ':', '/', '/'], r)
  | _ => none

/-- Match the regex `\[([^\]]+)\]\((https?:\/\/[^\)]+)\)` at the head of `cs`:
the full matched character run and the remainder, or `none`.  The greedy
classes `[^\]]+` / `[^\)]+` exclude their closing delimiter, so they match
exactly the run up to its first occurrence, with no residual backtracking. -/
def matchLinkAt (cs : List Char) : Option (List Char × List Char) :=
  match cs with
  | '[' :: r1 =>
    let label := r1.takeWhile (fun c => c ≠ ']')
    if label.isEmpty then none
    else
      match r1.dropWhile (fun c => c ≠ ']') with
      | ']' :: '(' :: r3 =>
        match stripScheme r3 with
        | some (scheme, r4) =>
          let url := r4.takeWhile (fun c => c ≠ ')')
          if url.isEmpty then none
          else
            match r4.dropWhile (fun c => c ≠ ')') with
            | ')' :: r6 =>
              some ('[' :: label ++ ']' :: '(' :: scheme ++ url ++ [')'], r6)
            | _ => none
        | none => none
      | _ => none
  | _ => none

/-- Global regex scan (`text.match(/.../g)`): find non-overlapping matches
left to right, resuming after each match.  `fuel` bounds the recursion; each
step consumes at least one character, so `fuel = cs.length` never runs out. -/
def scanLinksGo : Nat → List Char → List String
  | 0, _ => []
  | _ + 1, [] => []
  | fuel + 1, c :: cs =>
    match matchLinkAt (c :: cs) with
    | some (m, rest) => String.mk m :: scanLinksGo fuel rest
    | none => scanLinksGo fuel cs

/-- All matches of `\[([^\]]+)\]\((https?:\/\/[^\)]+)\)` in `s`, in text
order (the `urlMatches` array of mcp.ts, `[]` standing for a `null` match). -/
def scanLinks (s : String) : List String :=
  scanLinksGo s.toList.length s.toList

/-- The `sources` accumulator of mcp.ts: for each text element, append all its
regex matches, in response order. -/
def extractLinksFromItems (items : List ContentItem) : List String :=
  items.foldl
    (fun acc it =>
      match it with
      | .text s => acc ++ scanLinks s
      | .other => acc)
    []

/-- `[...new Set(sources)]`: deduplicate by exact string equality, keeping
the first occurrence of each element (JS `Set` insertion order). -/
def jsSetDedup (xs : List String) : List String :=
  xs.foldl (fun acc x => if x ∈ acc then acc else acc ++ [x]) []

/-- The `SearchResult` interface of mcp.ts. -/
structure SearchResult where
  content : String
  sources : List String
  deriving DecidableEq, Repr

/-- `searchDocuments` from mcp.ts, given the tool catalog returned by
`listTools` and the outcome of `callTool` (an `Except.error msg` models a
rejected `callTool` promise, which `searchDocuments` does not catch and which
therefore propagates to its caller).  When no tool name contains
`search`/`query`, the source logs an error and returns
`{ content: '', sources: [] }` without calling any tool. -/
def searchDocuments (tools : List ToolDesc)
    (callResult : Except String (List ContentItem)) :
    Except String SearchResult :=
  match findSearchTool tools with
  | none => .ok { content := "", sources := [] }
  | some _ =>
    match callResult with
    | .error msg => .error msg
    | .ok items =>
      .ok { content := jsTrim (contentConcat items)
            sources := jsSetDedup (extractLinksFromItems items) }

/-! ### gemini.ts — prompt builder and agent loop -/

/-- `buildSystemPrompt` from gemini.ts.  JS template truthiness: the skill
section and the extra clause in rule 2 appear exactly when `skillMd` is
non-empty. -/
def buildSystemPrompt (skillMd : String) : String :=
  let skillSection :=
    if skillMd = "" then ""
    else
      "\n## ドキュメントの能力と範囲\n\n以下は、このドキュメントがカバーする規格・能力の概要です。質問に回答する際、この情報を参考に適切なドキュメントを検索してください。\n\n"
        ++ skillMd ++ "\n"
  "あなたは IAB Tech Lab ドキュメントの質問に答えるアシスタントです。\n"
    ++ skillSection
    ++ "\n## ルール\n1. 利用可能なツール検索ツールを使用して、ドキュメントを検索し、質問に答えてください。\n2. ユーザーの質問に対して、"
    ++ (if skillMd = "" then "" else "上記の能力と範囲を参考に、")
    ++ "適切なキーワードで検索を行ってください。\n3. ツールから得られた情報のみを根拠に回答してください。情報がない場合は正直にそう伝えてください。\n4. 回答は日本語で、簡潔に行ってください。\n5. 回答の末尾に、参照したドキュメントのURLを必ずリストアップしてください。\n6. 複数の規格にまたがる質問の場合、関連する全ての規格から情報を収集してから回答してください。\n"

/-- One function call requested by the model (`call.name`, `call.args`; the
arguments are opaque to the loop, which only forwards them). -/
structure FnCall where
  name : String
  args : String
  deriving DecidableEq, Repr

/-- One model response: the list returned by `response.functionCalls()` (the
empty list models `undefined`/empty) and the text `response.text()` yields. -/
structure ModelResponse where
  functionCalls : List FnCall
  text : String
  deriving DecidableEq, Repr

/-- One element pushed onto `parts` in gemini.ts: a `functionResponse` whose
`response` field carries either `{ content: ... }` after a successful tool
call or `{ error: ... }` after a caught tool failure. -/
inductive FunctionResponsePart where
  | contentPart (name content : String)
  | errorPart (name message : String)
  deriving DecidableEq, Repr

/-- The part pushed for one tool call: the `try`/`catch` around `callMcpTool`
in gemini.ts.  A fulfilled call pushes the content part, a rejected call is
caught and pushes the error part with `err.message`. -/
def mkFunctionResponsePart (outcome : Except String String)
    (toolName : String) : FunctionResponsePart :=
  match outcome with
  | .ok content => .contentPart toolName content
  | .error msg => .errorPart toolName msg

/-- The `for (const call of functionCalls)` loop of gemini.ts, started at
call index `i`: each requested call is executed in request order via
`callMcpTool` (whose outcome for the call at index `i` is `toolOut i`) and
pushes exactly one part, success or failure. -/
def buildPartsFrom (toolOut : Nat → Except String String) (i : Nat) :
    List FnCall → List FunctionResponsePart
  | [] => []
  | call :: rest =>
    mkFunctionResponsePart (toolOut i) call.name
      :: buildPartsFrom toolOut (i + 1) rest

/-- The full `parts` array built for one model turn. -/
def buildParts (toolOut : Nat → Except String String)
    (calls : List FnCall) : List FunctionResponsePart :=
  buildPartsFrom toolOut 0 calls

/-- `MAX_ITERATIONS = 10` from gemini.ts. -/
def MAX_ITERATIONS : Nat := 10

/-- The `while (iteration < MAX_ITERATIONS)` loop of gemini.ts, desugared to
recursion on `remaining = MAX_ITERATIONS - iteration`.  `responses k` is the
outcome of the `k`-th `chat.sendMessage` (`k = 0` is the initial question
message, already consumed by the caller); `toolOut k i` is the outcome of the
`i`-th tool call executed for the response to message `k`.  Returns the
response held in `result` when the loop exits, together with the list of
`parts` arrays sent back to the model (one per tool round, in order), or the
error thrown by a rejected `sendMessage`. -/
def runLoop (responses : Nat → Except String ModelResponse)
    (toolOut : Nat → Nat → Except String String) :
    Nat → Nat → ModelResponse →
    Except String (ModelResponse × List (List FunctionResponsePart))
  | 0, _, result => .ok (result, [])
  | remaining + 1, iteration, result =>
    if result.functionCalls.isEmpty then .ok (result, [])
    else
      let parts := buildParts (toolOut iteration) result.functionCalls
      match responses (iteration + 1) with
      | .error e => .error e
      | .ok next =>
        match runLoop responses toolOut remaining (iteration + 1) next with
        | .error e => .error e
        | .ok (finalResp, trace) => .ok (finalResp, parts :: trace)

/-- The `GenerateAnswerResult` interface of gemini.ts. -/
structure GenerateAnswerResult where
  answer : String
  success : Bool
  deriving DecidableEq, Repr

/-- The fixed message returned when `GEMINI_API_KEY` is unset. -/
def keyMissingMessage : String := "設定エラー: GEMINI_API_KEYが設定されていません"

/-- The fixed message returned by the top-level `catch` of `generateAnswer`. -/
def genericErrorMessage : String := "回答の生成中にエラーが発生しました。"

/-- `generateAnswer` from gemini.ts.  External collaborators appear as
parameters: `apiKeySet` is whether `GEMINI_API_KEY` is configured;
`toolCatalog` is the outcome of `getGeminiTools()` (an MCP discovery failure
rejects); the skill cache is threaded through `getSkillContext`; `responses`
and `toolOut` are the LLM endpoint and the tool endpoint as in `runLoop`.
Every rejection inside the `try` block is converted by the top-level `catch`
into `{ answer: genericErrorMessage, success: false }`; the missing-key check
returns before the `try`.  The second component of the result records whether
any model call (`chat.sendMessage`) was attempted. -/
def generateAnswer (apiKeySet : Bool)
    (toolCatalog : Except String (List ToolDesc))
    (skillSt : SkillState) (now : Nat) (skillOutcome : FetchOutcome)
    (responses : Nat → Except String ModelResponse)
    (toolOut : Nat → Nat → Except String String)
    (_question : String) :
    GenerateAnswerResult × Bool :=
  if !apiKeySet then
    ({ answer := keyMissingMessage, success := false }, false)
  else
    match toolCatalog with
    | .error _ => ({ answer := genericErrorMessage, success := false }, false)
    | .ok _tools =>
      let skillMd := (getSkillContext skillSt now skillOutcome).returned
      let _systemPrompt := buildSystemPrompt skillMd
      match responses 0 with
      | .error _ => ({ answer := genericErrorMessage, success := false }, true)
      | .ok first =>
        match runLoop responses toolOut MAX_ITERATIONS 0 first with
        | .error _ => ({ answer := genericErrorMessage, success := false }, true)
        | .ok (finalResp, _) =>
          ({ answer := finalResp.text, success := true }, true)

/-! ### A spec-worded rendering of the C8 sentence, for comparison -/

/-- Written from the SPEC's words, for comparison with the source's
`contentConcat`/`jsTrim` pipeline: "the concatenation of all text segments of
the endpoint's response, each segment followed by a blank-line separator, in
response order". -/
def specTextContent : List ContentItem → String
  | [] => ""
  | .text s :: rest => s ++ "\n\n" ++ specTextContent rest
  | .other :: rest => specTextContent rest

/-! ### Theorems: the skill-context cache (C4, C5, C10) -/

/-- C4: for every cache state, a failed scope-document fetch leaves the
cached value and its timestamp untouched and returns the previously cached
value, or the empty string if no fetch has ever succeeded; so a failure can
never downgrade a previously good value to empty. -/
theorem getSkillContext_failure_keeps_cache (st : SkillState) (now : Nat) :
    (getSkillContext st now .failure).state = st ∧
    (getSkillContext st now .failure).returned = st.cachedContent.getD "" := by
  unfold getSkillContext skillFetch
  cases h : st.cachedContent with
  | none => simp [h]
  | some c =>
    by_cases hf : now - st.cachedAt < CACHE_TTL_MS <;> simp [h, hf]

/-- C5: a fresh cached value (age below the one-hour window) is returned
unchanged with no network call; and starting from the initial empty state,
two calls within the freshness window make exactly one network fetch — the
first call fetches (successfully, here) and the second serves the cache. -/
theorem getSkillContext_fresh_hit_single_fetch
    (st : SkillState) (now : Nat) (outcome : FetchOutcome) (c : String)
    (t0 t1 : Nat) (text : String) (outcome2 : FetchOutcome)
    (hc : st.cachedContent = some c)
    (hfresh : now - st.cachedAt < CACHE_TTL_MS)
    (hwin : t1 - t0 < CACHE_TTL_MS) :
    getSkillContext st now outcome =
      { returned := c, state := st, fetched := false } ∧
    (getSkillContext skillInit t0 (.success text)).fetched = true ∧
    getSkillContext (getSkillContext skillInit t0 (.success text)).state t1
        outcome2 =
      { returned := text
        state := { cachedContent := some text, cachedAt := t0 }
        fetched := false } := by
  refine ⟨?_, ?_, ?_⟩
  · unfold getSkillContext
    simp [hc, hfresh]
  · rfl
  · show getSkillContext { cachedContent := some text, cachedAt := t0 } t1
        outcome2 = _
    unfold getSkillContext
    simp [hwin]

/-- Witness for C5 at a concrete state and concrete times. -/
theorem getSkillContext_fresh_hit_single_fetch_witness :
    getSkillContext { cachedContent := some "v", cachedAt := 100 } 200 .failure =
      { returned := "v"
        state := { cachedContent := some "v", cachedAt := 100 }
        fetched := false } ∧
    (getSkillContext skillInit 1000 (.success "doc")).fetched = true ∧
    getSkillContext (getSkillContext skillInit 1000 (.success "doc")).state 2000
        .failure =
      { returned := "doc"
        state := { cachedContent := some "doc", cachedAt := 1000 }
        fetched := false } :=
  getSkillContext_fresh_hit_single_fetch _ _ _ _ _ _ _ _ rfl (by decide)
    (by decide)

/-- C10: when the very first fetch fails, `getSkillContext` returns the empty
string and records nothing — the state stays at its initial value — and any
subsequent call attempts the network fetch again. -/
theorem getSkillContext_initial_failure_not_cached
    (now now2 : Nat) (outcome2 : FetchOutcome) :
    getSkillContext skillInit now .failure =
      { returned := "", state := skillInit, fetched := true } ∧
    (getSkillContext skillInit now2 outcome2).fetched = true := by
  refine ⟨rfl, ?_⟩
  unfold getSkillContext skillInit
  cases outcome2 <;> rfl

/-! ### Theorems: the MCP client handle (C3) -/

/-- C3 counterexample: a failed connection attempt does NOT leave the cached
client handle empty.  `getClient` assigns the module-level `client` before
`connect` runs, so after a failed connect the slot holds the unconnected
client, and the next call returns that client without any new connection
attempt — a failed connect does poison future attempts. -/
theorem getClient_failed_connect_poisons :
    getClient none false true =
      (.error (), some { connected := false }, true) ∧
    getClient (some { connected := false }) true true =
      (.ok { connected := false }, some { connected := false }, false) :=
  ⟨rfl, rfl⟩

/-- C3 amended: connection establishment is attempted at most once while the
slot is filled — a call that finds a cached client makes no attempt — but a
failed connect leaves the slot holding the unconnected client, so every later
call returns that client without retrying the connection (until `closeClient`
resets the slot to empty). -/
theorem getClient_at_most_once_but_poisoned
    (cl : McpClient) (cOk lOk cOk2 lOk2 : Bool) :
    getClient (some cl) cOk lOk = (.ok cl, some cl, false) ∧
    getClient none false lOk =
      (.error (), some { connected := false }, true) ∧
    getClient (some { connected := false }) cOk2 lOk2 =
      (.ok { connected := false }, some { connected := false }, false) ∧
    closeClient (some { connected := false }) = none :=
  ⟨rfl, rfl, rfl, rfl⟩

/-! ### Theorems: source-link extraction (C7) -/

/-- The dedup fold keeps its accumulator duplicate-free. -/
theorem dedupFoldl_nodup (xs : List String) :
    ∀ acc : List String, acc.Nodup →
      (xs.foldl (fun acc x => if x ∈ acc then acc else acc ++ [x]) acc).Nodup := by
  induction xs with
  | nil => intro acc h; simpa using h
  | cons x t ih =>
    intro acc h
    simp only [List.foldl_cons]
    by_cases hx : x ∈ acc
    · rw [if_pos hx]; exact ih acc h
    · rw [if_neg hx]
      exact ih (acc ++ [x]) (by simp [List.nodup_append, h, hx])

/-- Folding the dedup step over a duplicate-free list disjoint from the
accumulator just appends it. -/
theorem dedupFoldl_of_nodup (xs : List String) :
    ∀ acc : List String, xs.Nodup → (∀ x ∈ xs, x ∉ acc) →
      xs.foldl (fun acc x => if x ∈ acc then acc else acc ++ [x]) acc =
        acc ++ xs := by
  induction xs with
  | nil => intro acc _ _; simp
  | cons x t ih =>
    intro acc hnd hdisj
    have hx : x ∉ acc := hdisj x (List.mem_cons_self x t)
    simp only [List.foldl_cons, if_neg hx]
    have := ih (acc ++ [x]) hnd.of_cons ?_
    · simpa [List.append_assoc] using this
    · intro y hy
      simp only [List.mem_append, List.mem_singleton]
      rintro (hya | rfl)
      · exact hdisj y (List.mem_cons_of_mem x hy) hya
      · exact (List.nodup_cons.mp hnd).1 hy

/-- `jsSetDedup` produces a duplicate-free list. -/
theorem jsSetDedup_nodup (xs : List String) : (jsSetDedup xs).Nodup :=
  dedupFoldl_nodup xs [] (by simp)

/-- C7: on text containing the link `[a](http://x)` twice and `[b](http://y)`
once, extraction followed by the `Set` deduplication yields exactly the two
distinct whole-match strings; and the deduplication (by exact string equality)
is idempotent, so re-running it on an extracted source set changes nothing. -/
theorem extraction_dedups_and_idempotent (xs : List String) :
    jsSetDedup (scanLinks "[a](http://x) [a](http://x) [b](http://y)") =
      ["[a](http://x)", "[b](http://y)"] ∧
    (jsSetDedup (scanLinks "[a](http://x) [a](http://x) [b](http://y)")).length
      = 2 ∧
    jsSetDedup (jsSetDedup xs) = jsSetDedup xs := by
  refine ⟨by decide, by decide, ?_⟩
  have h := dedupFoldl_of_nodup (jsSetDedup xs) [] (jsSetDedup_nodup xs)
    (by simp)
  simpa [jsSetDedup] using h

/-! ### Theorems: tool-response post-processing (C8) -/

/-- String concatenation is associative. -/
theorem stringAppendAssoc (a b c : String) : a ++ b ++ c = a ++ (b ++ c) := by
  apply String.ext
  simp

/-- The `content` accumulator computes the spec-worded concatenation, shifted
by the accumulator. -/
theorem contentConcat_go (items : List ContentItem) :
    ∀ acc : String,
      items.foldl
          (fun acc it =>
            match it with
            | .text s => acc ++ s ++ "\n\n"
            | .other => acc)
          acc
        = acc ++ specTextContent items := by
  induction items with
  | nil => intro acc; simp [specTextContent]
  | cons it t ih =>
    intro acc
    cases it with
    | text s =>
      simp only [List.foldl_cons]
      rw [ih]
      simp [specTextContent, stringAppendAssoc]
    | other =>
      simp only [List.foldl_cons]
      rw [ih]
      simp [specTextContent]

/-- The source's accumulator equals the spec-worded concatenation. -/
theorem contentConcat_eq_spec (items : List ContentItem) :
    contentConcat items = specTextContent items := by
  have h := contentConcat_go items ""
  simpa [contentConcat] using h

/-- C8 counterexample: the returned `textContent` is NOT the plain
concatenation-with-separators.  For the single text segment `hello`, the
spec-worded value is `hello\n\n` but `searchDocuments` returns `hello`,
because the source applies `content.trim()` before returning. -/
theorem searchDocuments_content_trimmed_counterexample :
    searchDocuments [{ name := "doc-search" }]
        (.ok [ContentItem.text "hello"]) =
      .ok { content := "hello", sources := [] } ∧
    specTextContent [ContentItem.text "hello"] = "hello\n\n" ∧
    ("hello" : String) ≠ "hello\n\n" :=
  ⟨rfl, rfl, by decide⟩

/-- C8 amended: when a search tool is found and the call succeeds, the
returned `textContent` equals the concatenation of all text segments, each
followed by a blank-line separator, in response order, with leading and
trailing whitespace then stripped (`content.trim()`). -/
theorem searchDocuments_content_is_trimmed_concat
    (tools : List ToolDesc) (t : ToolDesc) (items : List ContentItem)
    (h : findSearchTool tools = some t) :
    searchDocuments tools (.ok items) =
      .ok { content := jsTrim (specTextContent items)
            sources := jsSetDedup (extractLinksFromItems items) } := by
  unfold searchDocuments
  rw [h]
  show Except.ok (SearchResult.mk (jsTrim (contentConcat items))
        (jsSetDedup (extractLinksFromItems items)))
      = Except.ok (SearchResult.mk (jsTrim (specTextContent items))
        (jsSetDedup (extractLinksFromItems items)))
  rw [contentConcat_eq_spec]

/-- Witness for the amended C8 at a concrete catalog and response. -/
theorem searchDocuments_content_is_trimmed_concat_witness :
    searchDocuments [{ name := "doc-search" }]
        (.ok [ContentItem.text "hello", ContentItem.text "world"]) =
      .ok { content :=
              jsTrim (specTextContent
                [ContentItem.text "hello", ContentItem.text "world"])
            sources :=
              jsSetDedup (extractLinksFromItems
                [ContentItem.text "hello", ContentItem.text "world"]) } :=
  searchDocuments_content_is_trimmed_concat _ _ _ rfl

/-! ### Theorems: tool selection without a matching tool (C9) -/

/-- C9 counterexample: with a catalog holding no tool whose name contains
`search` or `query`, `searchDocuments` neither crashes nor raises any
tool-invocation error — it silently succeeds with an empty result, without
calling any tool (the supplied call outcome is never consulted). -/
theorem searchDocuments_unknown_tool_silently_succeeds :
    searchDocuments [{ name := "translate" }] (.error "boom") =
      .ok { content := "", sources := [] } ∧
    searchDocuments [{ name := "translate" }] (.ok [ContentItem.text "data"]) =
      .ok { content := "", sources := [] } :=
  ⟨rfl, rfl⟩

/-- C9 amended: when no catalog entry passes the `search`/`query` name test,
`searchDocuments` logs and returns the empty result successfully, for every
behavior of the tool endpoint; no error value of any kind is produced (no
`ToolInvocationError` exists in the code). -/
theorem searchDocuments_no_search_tool
    (tools : List ToolDesc) (callResult : Except String (List ContentItem))
    (h : findSearchTool tools = none) :
    searchDocuments tools callResult = .ok { content := "", sources := [] } := by
  unfold searchDocuments
  rw [h]

/-- Witness for the amended C9 at a concrete catalog. -/
theorem searchDocuments_no_search_tool_witness :
    searchDocuments [{ name := "translate" }] (.error "boom") =
      .ok { content := "", sources := [] } :=
  searchDocuments_no_search_tool _ _ rfl

/-! ### Theorems: the agent loop (C1, C2, C6) -/

/-- One part is pushed per requested call: no call is dropped and none is
deduplicated. -/
theorem buildPartsFrom_length (toolOut : Nat → Except String String) :
    ∀ (calls : List FnCall) (i : Nat),
      (buildPartsFrom toolOut i calls).length = calls.length := by
  intro calls
  induction calls with
  | nil => intro i; rfl
  | cons c rest ih => intro i; simpa [buildPartsFrom] using ih (i + 1)

/-- The whole parts array has one entry per requested call. -/
theorem buildParts_length (toolOut : Nat → Except String String)
    (calls : List FnCall) :
    (buildParts toolOut calls).length = calls.length :=
  buildPartsFrom_length toolOut calls 0

/-- The part at index `i` is built from the call at index `i` and the outcome
of the tool execution at index `j + i`. -/
theorem buildPartsFrom_get (toolOut : Nat → Except String String) :
    ∀ (calls : List FnCall) (j i : Nat) (hi : i < calls.length),
      (buildPartsFrom toolOut j calls).get
          ⟨i, by rw [buildPartsFrom_length]; exact hi⟩
        = mkFunctionResponsePart (toolOut (j + i)) (calls.get ⟨i, hi⟩).name := by
  intro calls
  induction calls with
  | nil => intro j i hi; exact absurd hi (by simp)
  | cons c rest ih =>
    intro j i hi
    cases i with
    | zero => simp [buildPartsFrom]
    | succ i' =>
      have h' : i' < rest.length := Nat.lt_of_succ_lt_succ hi
      have := ih (j + 1) i' h'
      simpa [buildPartsFrom, Nat.add_assoc, Nat.add_comm 1 i'] using this

/-- The loop performs at most `remaining` tool rounds: the trace of parts
arrays sent back to the model is never longer than the round budget. -/
theorem runLoop_trace_length_le
    (responses : Nat → Except String ModelResponse)
    (toolOut : Nat → Nat → Except String String) :
    ∀ (remaining iteration : Nat) (result finalResp : ModelResponse)
      (trace : List (List FunctionResponsePart)),
      runLoop responses toolOut remaining iteration result
          = .ok (finalResp, trace) →
      trace.length ≤ remaining := by
  intro remaining
  induction remaining with
  | zero =>
    intro iteration result finalResp trace h
    simp only [runLoop] at h
    cases h
    simp
  | succ n ih =>
    intro iteration result finalResp trace h
    simp only [runLoop] at h
    by_cases he : result.functionCalls.isEmpty
    · rw [if_pos he] at h
      cases h
      simp
    · rw [if_neg he] at h
      cases hr : responses (iteration + 1) with
      | error e => simp only [hr] at h; simp at h
      | ok next =>
        simp only [hr] at h
        cases hrec : runLoop responses toolOut n (iteration + 1) next with
        | error e => simp only [hrec] at h; simp at h
        | ok p =>
          obtain ⟨f, tr⟩ := p
          simp only [hrec] at h
          cases h
          simpa using Nat.succ_le_succ (ih (iteration + 1) next _ _ hrec)

/-- When every model response requests at least one tool call, the loop runs
its full round budget: starting at message index `i` it performs exactly `n`
tool rounds and exits holding the response to message `i + n`. -/
theorem runLoop_all_calls (rs : Nat → ModelResponse)
    (toolOut : Nat → Nat → Except String String)
    (hall : ∀ k, (rs k).functionCalls ≠ []) :
    ∀ (n i : Nat), ∃ trace,
      runLoop (fun k => .ok (rs k)) toolOut n i (rs i)
          = .ok (rs (i + n), trace) ∧
      trace.length = n := by
  intro n
  induction n with
  | zero => intro i; exact ⟨[], rfl, rfl⟩
  | succ m ih =>
    intro i
    obtain ⟨tr, htr, hlen⟩ := ih (i + 1)
    have hne : (rs i).functionCalls.isEmpty = false := by
      rcases hcase : (rs i).functionCalls with _ | ⟨c, cs⟩
      · exact absurd hcase (hall i)
      · rfl
    have hidx : i + 1 + m = i + (m + 1) := by omega
    rw [hidx] at htr
    refine ⟨buildParts (toolOut i) (rs i).functionCalls :: tr, ?_, by simp [hlen]⟩
    simp only [runLoop, hne, Bool.false_eq_true, if_false]
    simp [htr]

/-- C1: the agent loop performs at most 10 tool-exchange rounds, and when the
model requests at least one tool call in every response, the loop is forced to
exit after the 10th round and `generateAnswer` returns success with whatever
text is present in the last model response (the response to the 10th tool
round's message). -/
theorem generateAnswer_iteration_ceiling
    (responses : Nat → Except String ModelResponse)
    (toolOut toolOut2 : Nat → Nat → Except String String)
    (rs : Nat → ModelResponse)
    (r0 finalResp : ModelResponse) (trace : List (List FunctionResponsePart))
    (cat : List ToolDesc) (st : SkillState) (now : Nat)
    (skillOutcome : FetchOutcome) (q : String)
    (hrun : runLoop responses toolOut MAX_ITERATIONS 0 r0
        = .ok (finalResp, trace))
    (hall : ∀ k, (rs k).functionCalls ≠ []) :
    trace.length ≤ 10 ∧
    generateAnswer true (.ok cat) st now skillOutcome
        (fun k => .ok (rs k)) toolOut2 q
      = ({ answer := (rs 10).text, success := true }, true) := by
  constructor
  · exact runLoop_trace_length_le responses toolOut MAX_ITERATIONS 0 r0
      finalResp trace hrun
  · obtain ⟨tr, htr, _⟩ := runLoop_all_calls rs toolOut2 hall MAX_ITERATIONS 0
    unfold generateAnswer
    simp only [Bool.not_true, Bool.false_eq_true, if_false]
    rw [show ((0 : Nat) + MAX_ITERATIONS) = 10 from rfl] at htr
    simp [htr]

/-- Witness for C1: a loop input that stops immediately (empty trace), and a
model that always requests the same tool call, forced to a best-effort answer
after 10 rounds. -/
theorem generateAnswer_iteration_ceiling_witness :
    ([] : List (List FunctionResponsePart)).length ≤ 10 ∧
    generateAnswer true (.ok []) skillInit 0 .failure
        (fun _ => .ok { functionCalls := [{ name := "search", args := "q" }]
                        text := "best effort" })
        (fun _ _ => .ok "tool output") "question"
      = ({ answer := "best effort", success := true }, true) :=
  generateAnswer_iteration_ceiling
    (fun _ => .ok { functionCalls := [], text := "t" })
    (fun _ _ => .ok "r") (fun _ _ => .ok "tool output")
    (fun _ => { functionCalls := [{ name := "search", args := "q" }]
                text := "best effort" })
    { functionCalls := [], text := "t" } { functionCalls := [], text := "t" }
    [] [] skillInit 0 .failure "question" rfl
    (fun _ => List.cons_ne_nil _ _)

/-- C2: `generateAnswer` never propagates an exception — every path yields a
`GenerateAnswerResult`, and pre-flight failures (missing API key, tool-catalog
discovery failure) return `success = false` with a fixed generic message
before any model call is attempted.  Every failing path, for every behavior
of the endpoints, surfaces only one of the two fixed messages. -/
theorem generateAnswer_never_throws (b : Bool)
    (toolCatalog : Except String (List ToolDesc))
    (st : SkillState) (now : Nat) (skillOutcome : FetchOutcome)
    (responses : Nat → Except String ModelResponse)
    (toolOut : Nat → Nat → Except String String) (q : String) (e : String) :
    generateAnswer false toolCatalog st now skillOutcome responses toolOut q
      = ({ answer := keyMissingMessage, success := false }, false) ∧
    generateAnswer true (.error e) st now skillOutcome responses toolOut q
      = ({ answer := genericErrorMessage, success := false }, false) ∧
    ((generateAnswer b toolCatalog st now skillOutcome responses toolOut
          q).1.success = false →
      (generateAnswer b toolCatalog st now skillOutcome responses toolOut
          q).1.answer = keyMissingMessage ∨
      (generateAnswer b toolCatalog st now skillOutcome responses toolOut
          q).1.answer = genericErrorMessage) := by
  refine ⟨rfl, rfl, ?_⟩
  intro hfail
  unfold generateAnswer at hfail ⊢
  cases b with
  | false => left; rfl
  | true =>
    right
    simp only [Bool.not_true, Bool.false_eq_true, if_false] at hfail ⊢
    cases toolCatalog with
    | error e2 => rfl
    | ok tools =>
      cases h0 : responses 0 with
      | error e3 => simp [h0]
      | ok first =>
        simp only [h0] at hfail ⊢
        cases hl : runLoop responses toolOut MAX_ITERATIONS 0 first with
        | error e4 => simp [hl]
        | ok p =>
          obtain ⟨fr, tr⟩ := p
          simp [hl] at hfail

/-- Witness for C2: concrete pre-flight failures and a failing model call,
each yielding a returned result with the fixed message. -/
theorem generateAnswer_never_throws_witness :
    generateAnswer false (.ok []) skillInit 0 .failure
        (fun _ => .error "down") (fun _ _ => .ok "") "q"
      = ({ answer := keyMissingMessage, success := false }, false) ∧
    generateAnswer true (.error "mcp unreachable") skillInit 0 .failure
        (fun _ => .error "down") (fun _ _ => .ok "") "q"
      = ({ answer := genericErrorMessage, success := false }, false) ∧
    ((generateAnswer true (.ok []) skillInit 0 .failure
        (fun _ => .error "down") (fun _ _ => .ok "") "q").1.answer
      = keyMissingMessage ∨
    (generateAnswer true (.ok []) skillInit 0 .failure
        (fun _ => .error "down") (fun _ _ => .ok "") "q").1.answer
      = genericErrorMessage) := by
  have h := generateAnswer_never_throws true (.ok []) skillInit 0 .failure
    (fun _ => .error "down") (fun _ _ => .ok "") "q" "mcp unreachable"
  exact ⟨h.1, h.2.1, h.2.2 rfl⟩

/-- C6: in one model turn the requested tool calls produce exactly one
result part each, in the same relative order as the requests and with no
deduplication (the part at index `i` is built from the call at index `i`,
carrying the tool text content on success and the error message on failure);
and the loop then appends the parts as the next turn and continues to the
next model exchange instead of terminating. -/
theorem toolCalls_ordered_and_loop_continues
    (toolOut : Nat → Except String String) (calls : List FnCall) (i : Nat)
    (hi : i < calls.length)
    (responses : Nat → Except String ModelResponse)
    (toolOut2 : Nat → Nat → Except String String)
    (remaining iteration : Nat) (r next finalResp : ModelResponse)
    (trace : List (List FunctionResponsePart))
    (hcalls : r.functionCalls ≠ [])
    (hnext : responses (iteration + 1) = .ok next)
    (hrec : runLoop responses toolOut2 remaining (iteration + 1) next
        = .ok (finalResp, trace)) :
    (buildParts toolOut calls).length = calls.length ∧
    (buildParts toolOut calls).get ⟨i, by rw [buildParts_length]; exact hi⟩
      = mkFunctionResponsePart (toolOut i) (calls.get ⟨i, hi⟩).name ∧
    runLoop responses toolOut2 (remaining + 1) iteration r
      = .ok (finalResp,
          buildParts (toolOut2 iteration) r.functionCalls :: trace) := by
  refine ⟨buildParts_length toolOut calls, ?_, ?_⟩
  · have h := buildPartsFrom_get toolOut calls 0 i hi
    simpa [buildParts] using h
  · have hne : r.functionCalls.isEmpty = false := by
      rcases hcase : r.functionCalls with _ | ⟨c, cs⟩
      · exact absurd hcase hcalls
      · rfl
    simp only [runLoop, hne, Bool.false_eq_true, if_false]
    simp [hnext, hrec]

/-- Witness for C6: two identical requested calls produce two parts (no
deduplication), the part at index 1 carries the error message of its own
failed execution, and the one-round loop step appends the parts and
continues. -/
theorem toolCalls_ordered_and_loop_continues_witness :
    (buildParts
        (fun k => if k = 0 then .ok "result zero" else .error "tool failed")
        [{ name := "search", args := "q" }, { name := "search", args := "q" }]
      ).length = 2 ∧
    (buildParts
        (fun k => if k = 0 then .ok "result zero" else .error "tool failed")
        [{ name := "search", args := "q" }, { name := "search", args := "q" }]
      ).get ⟨1, by decide⟩
      = FunctionResponsePart.errorPart "search" "tool failed" ∧
    runLoop (fun _ => .ok { functionCalls := [], text := "done" })
        (fun _ _ => .ok "tool output") 1 0
        { functionCalls := [{ name := "search", args := "q" }], text := "" }
      = .ok ({ functionCalls := [], text := "done" },
          [buildParts (fun _ => Except.ok "tool output")
            [{ name := "search", args := "q" }]]) := by
  have h := toolCalls_ordered_and_loop_continues
    (fun k => if k = 0 then .ok "result zero" else .error "tool failed")
    [{ name := "search", args := "q" }, { name := "search", args := "q" }]
    1 (by decide)
    (fun _ => .ok { functionCalls := [], text := "done" })
    (fun _ _ => .ok "tool output") 0 0
    { functionCalls := [{ name := "search", args := "q" }], text := "" }
    { functionCalls := [], text := "done" }
    { functionCalls := [], text := "done" }
    [] (List.cons_ne_nil _ _) rfl rfl
  exact ⟨h.1, h.2.1, h.2.2⟩
